import Mathlib

/-!
Verification development for the SQLChatbot repository (src/request_handler.py and
src/deep.py).  The Python functions of `request_handler.py` are shallowly embedded
as executable Lean definitions: machine strings become `String`/`List Char`,
`difflib.get_close_matches` is modelled over `ℚ`, `json.loads` is modelled by an
executable JSON parser, and the external collaborators (Watsonx LLM gateway, MySQL
executor, schema inspector) become per-turn oracles.  Raised Python exceptions are
modelled with `Except`.
-/

namespace SQLChatbot

/-! ## Python string primitives -/

/-- The characters stripped by Python `str.strip()`: space, tab, newline,
carriage return, vertical tab, form feed. -/
def py_ws (c : Char) : Bool := [32, 9, 10, 13, 11, 12].contains c.toNat

/-- Python `str.strip()` on a character list. -/
def py_strip_list (cs : List Char) : List Char :=
  ((cs.dropWhile py_ws).reverse.dropWhile py_ws).reverse

/-- Python `str.strip()`. -/
def py_strip (s : String) : String := String.mk (py_strip_list s.data)

/-- Case-sensitive: does the second list start with the first one? -/
def starts_with_cs : List Char → List Char → Bool
  | [], _ => true
  | _ :: _, [] => false
  | p :: ps, c :: cs => p == c && starts_with_cs ps cs

/-- Case-sensitive substring occurrence test. -/
def contains_seq (needle : List Char) : List Char → Bool
  | [] => starts_with_cs needle []
  | c :: rest => starts_with_cs needle (c :: rest) || contains_seq needle rest

/-- ASCII case-insensitive character comparison; models `re.IGNORECASE` on the
ASCII identifiers and keywords this program matches. -/
def lower_eq (a b : Char) : Bool := a.toLower == b.toLower

/-- Case-insensitive: does the second list start with the first one? -/
def starts_with_ci : List Char → List Char → Bool
  | [], _ => true
  | _ :: _, [] => false
  | p :: ps, c :: cs => lower_eq p c && starts_with_ci ps cs

/-! ## `extract_sql_from_llm_response` (src/request_handler.py lines 408-431) -/

/-- The SQL keywords searched by the compiled alternation pattern
`(SELECT|INSERT|UPDATE|DELETE|WITH|SHOW|DESCRIBE|EXPLAIN)` with `re.IGNORECASE`. -/
def sql_keywords : List (List Char) :=
  ["SELECT", "INSERT", "UPDATE", "DELETE", "WITH", "SHOW", "DESCRIBE", "EXPLAIN"].map
    String.data

/-- Index of the leftmost case-insensitive occurrence of a SQL keyword
(`pattern.search(response_text)` and `match.start()`). -/
def first_keyword_idx : List Char → Option Nat
  | [] => none
  | c :: rest =>
    if sql_keywords.any (fun kw => starts_with_ci kw (c :: rest)) then some 0
    else (first_keyword_idx rest).map (· + 1)

/-- `extract_sql_from_llm_response` (lines 408-431).  The two `re.findall`
calls both use the pattern `r"``````"`: six literal backticks with no capture
group, so `code_blocks` is non-empty exactly when the response contains a run of
six consecutive backticks, and `code_blocks[0]` is then the six-backtick match
text itself.  Otherwise the function returns the stripped tail of the response
from the first SQL keyword, or the whole stripped response. -/
def extract_sql_from_llm_response (response_text : String) : String :=
  if contains_seq ("``````".data) response_text.data then
    py_strip "``````"
  else
    match first_keyword_idx response_text.data with
    | some i => py_strip (String.mk (response_text.data.drop i))
    | none => py_strip response_text

/-! ## `extract_column_from_sql_error` (lines 434-441)

Models `re.findall(r"Unknown column '(.+?)' in", error_msg)` followed by
`matches[0]`: the scanner tries each start position left to right; at a
position where the literal marker `Unknown column '` matches it looks for the
shortest non-empty newline-free capture followed by the literal `' in`. -/

/-- The literal marker `Unknown column '` of the error-message pattern. -/
def unknown_col_marker : List Char := "Unknown column \x27".data

/-- Minimal-length capture for `(.+?)' in`: consume at least one character,
none of them a newline (`.` does not match `\n`), stopping at the first
position where the literal `' in` follows. -/
def capture_scan (acc : List Char) : List Char → Option (List Char)
  | [] => none
  | c :: rest =>
    if c == '\n' then none
    else if starts_with_cs ("\x27 in".data) rest then some (c :: acc).reverse
    else capture_scan (c :: acc) rest

/-- Scan of the whole error message: first match of the full pattern wins. -/
def scan_error_msg : List Char → Option (List Char)
  | [] => none
  | c :: rest =>
    if starts_with_cs unknown_col_marker (c :: rest) then
      match capture_scan [] ((c :: rest).drop unknown_col_marker.length) with
      | some cap => some cap
      | none => scan_error_msg rest
    else scan_error_msg rest

/-- `extract_column_from_sql_error` (lines 434-441). -/
def extract_column_from_sql_error (error_msg : String) : Option String :=
  (scan_error_msg error_msg.data).map String.mk

/-! ## Case-insensitive literal substitution

Models `re.sub(re.escape(invalid_col), corrected_col, sql, flags=re.IGNORECASE)`
(line 461): `re.escape` makes the pattern a literal string, and `re.sub`
replaces every non-overlapping occurrence left to right. -/

/-- Fuel-indexed worker; the fuel is the length of the scanned text, and every
step consumes at least one character, so the fuel never runs out at the call
site. -/
def sub_ci_aux (pat rep : List Char) : Nat → List Char → List Char
  | _, [] => []
  | 0, cs => cs
  | fuel+1, c :: rest =>
    if !pat.isEmpty && starts_with_ci pat (c :: rest) then
      rep ++ sub_ci_aux pat rep fuel ((c :: rest).drop pat.length)
    else
      c :: sub_ci_aux pat rep fuel rest

/-- Case-insensitive literal replacement of `pat` by `rep` throughout `s`. -/
def sub_ci (pat rep s : String) : String :=
  String.mk (sub_ci_aux pat.data rep.data s.data.length s.data)

/-! ## `difflib.get_close_matches` (stdlib dependency of `fix_sql_query_column`)

`get_close_matches(invalid_col, columns, n=1, cutoff=0.6)` filters the
candidates through `real_quick_ratio`, `quick_ratio` and `ratio` of a
`SequenceMatcher` with `seq1 = candidate`, `seq2 = invalid_col`, and returns the
largest surviving `(ratio, candidate)` pair.  The inputs here are short column
identifiers, far below the 200-character autojunk threshold, so the junk sets
are empty; with empty junk the two junk-extension loops of
`find_longest_match` never fire, and the `j2len` dynamic-programming dictionary
is the explicit run-length function `chain_len` below.  Scores are computed in
exact rational arithmetic. -/

/-- Length of the matching run ending exactly at positions `i` of `a` and `j`
of `b`, truncated at the window starts `alo`/`blo`: the value the `j2len`
dictionary holds at key `j` while row `i` is scanned.  The fuel is at least
`i + 1` at every call site, so it never runs out. -/
def chain_len (a b : List Char) (alo blo : Nat) : Nat → Nat → Nat → Nat
  | 0, _, _ => 0
  | fuel+1, i, j =>
    if alo ≤ i ∧ blo ≤ j ∧ a[i]?.isSome ∧ a[i]? = b[j]? then
      (if i = alo ∨ j = blo then 1 else chain_len a b alo blo fuel (i-1) (j-1) + 1)
    else 0

/-- The positions of character `ch` inside `b`, restricted to the window
`[blo, bhi)`: the filtered traversal of `b2j[a[i]]`. -/
def js_of (b : List Char) (ch : Char) (blo bhi : Nat) : List Nat :=
  (List.range b.length).filter (fun j => decide (blo ≤ j ∧ j < bhi ∧ b[j]? = some ch))

/-- One row of the `find_longest_match` scan: update the best block with every
run ending at row `i`. -/
def flm_step (a b : List Char) (alo blo bhi : Nat) (best : Nat × Nat × Nat)
    (i : Nat) : Nat × Nat × Nat :=
  match a[i]? with
  | none => best
  | some ch =>
    (js_of b ch blo bhi).foldl
      (fun best j =>
        let k := chain_len a b alo blo (i+1) i j
        if best.2.2 < k then (i + 1 - k, j + 1 - k, k) else best)
      best

/-- `SequenceMatcher.find_longest_match` on the window
`a[alo:ahi]`, `b[blo:bhi]`, with empty junk sets. -/
def find_longest_match (a b : List Char) (alo ahi blo bhi : Nat) : Nat × Nat × Nat :=
  (List.range' alo (ahi - alo)).foldl (flm_step a b alo blo bhi) (alo, blo, 0)

/-- Total size of the matching blocks of `get_matching_blocks` restricted to a
window: the recursive split of the window at the longest match.  The adjacent
block merging done by `get_matching_blocks` does not change the total size.
The fuel bounds the recursion depth; `min (ahi - alo) (bhi - blo) + 1` always
suffices. -/
def matching_total (a b : List Char) : Nat → Nat → Nat → Nat → Nat → Nat
  | 0, _, _, _, _ => 0
  | fuel+1, alo, ahi, blo, bhi =>
    match find_longest_match a b alo ahi blo bhi with
    | (i, j, k) =>
      if k = 0 then 0
      else
        matching_total a b fuel alo i blo j + k + matching_total a b fuel (i+k) ahi (j+k) bhi

/-- `SequenceMatcher.quick_ratio`'s match count: the `avail`/`fullbcount`
counting loop computes the size of the character multiset intersection. -/
def quick_matches (a b : List Char) : Nat :=
  Multiset.card ((↑a : Multiset Char) ∩ (↑b : Multiset Char))

/-- `difflib._calculate_ratio`. -/
def calculate_ratio (m t : Nat) : ℚ :=
  if t = 0 then 1 else 2 * (m : ℚ) / (t : ℚ)

/-- Match count of `SequenceMatcher(None, x, w).ratio()` over the full strings. -/
def smatches (x w : String) : Nat :=
  matching_total x.data w.data (x.length + w.length + 1) 0 x.length 0 w.length

/-- The denominator `len(a) + len(b)` shared by all three ratios of a pair. -/
def stotal (x w : String) : Nat := x.length + w.length

/-- `SequenceMatcher.ratio()` with `seq1 = x`, `seq2 = w`, as a rational. -/
def ratioQ (x w : String) : ℚ := calculate_ratio (smatches x w) (stotal x w)

/-- `SequenceMatcher.quick_ratio()`. -/
def quick_ratioQ (x w : String) : ℚ :=
  calculate_ratio (quick_matches x.data w.data) (stotal x w)

/-- `SequenceMatcher.real_quick_ratio()`. -/
def real_quick_ratioQ (x w : String) : ℚ :=
  calculate_ratio (min x.length w.length) (stotal x w)

/-- Decides `cn / cd ≤ _calculate_ratio m t` by cross multiplication (the
`t = 0` case has ratio `1`).  Exact rational comparison without constructing
normalized rationals. -/
def cutoff_le_frac (cn cd m t : Nat) : Bool :=
  if t = 0 then decide (cn ≤ cd) else decide (cn * t ≤ cd * (2 * m))

/-- The cutoff filter of `get_close_matches` at cutoff `3/5`:
`real_quick_ratio() >= cutoff and quick_ratio() >= cutoff and ratio() >= cutoff`. -/
def gcm_passes (x word : String) : Bool :=
  cutoff_le_frac 3 5 (min x.length word.length) (stotal x word) &&
    cutoff_le_frac 3 5 (quick_matches x.data word.data) (stotal x word) &&
      cutoff_le_frac 3 5 (smatches x word) (stotal x word)

/-- The ratio of a surviving candidate as an unreduced fraction
`(numerator, positive denominator)`. -/
def score_pair (x w : String) : Nat × Nat :=
  if stotal x w = 0 then (1, 1) else (2 * smatches x w, stotal x w)

/-- Strict comparison of two fractions with positive denominators. -/
def frac_gt (p q : Nat × Nat) : Bool := decide (q.1 * p.2 < p.1 * q.2)

/-- Equality of two fractions with positive denominators. -/
def frac_eq (p q : Nat × Nat) : Bool := decide (p.1 * q.2 = q.1 * p.2)

/-- Python comparison of `(score, string)` tuples as used by `heapq._nlargest`:
the challenger `q` replaces the incumbent `p` only if its tuple is strictly
larger. -/
def best_pair (p q : (Nat × Nat) × String) : (Nat × Nat) × String :=
  if frac_gt q.1 p.1 || (frac_eq q.1 p.1 && decide (p.2 < q.2)) then q else p

/-- The filtered `(score, candidate)` list built by `get_close_matches`. -/
def gcm_scored (word : String) (possibilities : List String) :
    List ((Nat × Nat) × String) :=
  possibilities.filterMap
    (fun x => if gcm_passes x word then some (score_pair x word, x) else none)

/-- `difflib.get_close_matches(word, possibilities, n=1, cutoff=0.6)`,
returning the single result if any. -/
def get_close_matches1 (word : String) (possibilities : List String) : Option String :=
  match gcm_scored word possibilities with
  | [] => none
  | p :: ps => some ((ps.foldl best_pair p).2)

/-- The column-repair heuristic contract `findClosestColumn` of the spec: the
`get_close_matches(invalid_col, columns, n=1, cutoff=0.6)` call of
`fix_sql_query_column` (line 456). -/
def find_closest_column (invalid_name : String) (candidate_columns : List String) :
    Option String :=
  get_close_matches1 invalid_name candidate_columns

/-! ## JSON values and `json.loads`

Python values produced by `json.loads`.  Numbers are modelled as exact
rationals (Python distinguishes `int` and `float`; the distinction is
irrelevant to every claim, and the strings compared against database names are
never numbers).  Lone surrogate `\u` escapes, which Python keeps as surrogate
code points, are inexpressible in `Char` and map to the default character;
the `NaN`/`Infinity` extension of Python's decoder is not modelled.  Objects
are Python dicts: insertion order with last-wins values, unique keys. -/

inductive Json where
  | null
  | bool (b : Bool)
  | num (q : ℚ)
  | str (s : String)
  | arr (elems : List Json)
  | obj (members : List (String × Json))

/-- Python dict insertion: update in place if the key exists, else append. -/
def dict_insert (kvs : List (String × Json)) (k : String) (v : Json) :
    List (String × Json) :=
  if kvs.any (fun p => p.1 == k) then
    kvs.map (fun p => if p.1 == k then (k, v) else p)
  else kvs ++ [(k, v)]

/-- Python dict lookup. -/
def dict_lookup (kvs : List (String × Json)) (k : String) : Option Json :=
  (kvs.find? (fun p => p.1 == k)).map (fun p => p.2)

/-- Python `dict.get(k)`: the value if present, else `None`.  A stored JSON
`null` and a missing key are both the Python object `None`. -/
def dict_get (kvs : List (String × Json)) (k : String) : Json :=
  (dict_lookup kvs k).getD Json.null

/-- The whitespace accepted between JSON tokens: space, tab, newline,
carriage return. -/
def json_ws (c : Char) : Bool := [32, 9, 10, 13].contains c.toNat

/-- Skip JSON whitespace. -/
def skip_ws : List Char → List Char
  | c :: rest => if json_ws c then skip_ws rest else c :: rest
  | [] => []

/-- Hexadecimal digit value, by code point. -/
def hex_val (c : Char) : Option Nat :=
  let n := c.toNat
  if 48 ≤ n ∧ n ≤ 57 then some (n - 48)
  else if 97 ≤ n ∧ n ≤ 102 then some (n - 87)
  else if 65 ≤ n ∧ n ≤ 70 then some (n - 55)
  else none

/-- Decimal digit value, by code point. -/
def digit_val (c : Char) : Option Nat :=
  let n := c.toNat
  if 48 ≤ n ∧ n ≤ 57 then some (n - 48) else none

/-- The single-character string escapes of JSON. -/
def esc_char : Char → Option Char
  | '"' => some '"'
  | '\\' => some '\\'
  | '/' => some '/'
  | 'b' => some (Char.ofNat 8)
  | 'f' => some (Char.ofNat 12)
  | 'n' => some (Char.ofNat 10)
  | 'r' => some (Char.ofNat 13)
  | 't' => some (Char.ofNat 9)
  | _ => none

/-- Body of a JSON string after the opening quote (strict mode: unescaped
control characters are rejected).  Fuel is the remaining input length. -/
def parse_str_body : Nat → List Char → Except Unit (List Char × List Char)
  | 0, _ => .error ()
  | _, [] => .error ()
  | fuel+1, c :: rest =>
    if c == '"' then .ok ([], rest)
    else if c == '\\' then
      match rest with
      | [] => .error ()
      | e :: rest2 =>
        if e == 'u' then
          match rest2 with
          | h1 :: h2 :: h3 :: h4 :: rest3 =>
            match hex_val h1, hex_val h2, hex_val h3, hex_val h4 with
            | some x1, some x2, some x3, some x4 =>
              (match parse_str_body fuel rest3 with
               | .ok (cs, rem) =>
                 .ok (Char.ofNat (((x1 * 16 + x2) * 16 + x3) * 16 + x4) :: cs, rem)
               | .error u => .error u)
            | _, _, _, _ => .error ()
          | _ => .error ()
        else
          match esc_char e with
          | some ec =>
            (match parse_str_body fuel rest2 with
             | .ok (cs, rem) => .ok (ec :: cs, rem)
             | .error u => .error u)
          | none => .error ()
    else if c.toNat < 0x20 then .error ()
    else
      match parse_str_body fuel rest with
      | .ok (cs, rem) => .ok (c :: cs, rem)
      | .error u => .error u

/-- Greedy run of decimal digits. -/
def take_digits : List Char → List Nat × List Char
  | [] => ([], [])
  | c :: rest =>
    match digit_val c with
    | some d =>
      match take_digits rest with
      | (ds, rem) => (d :: ds, rem)
    | none => ([], c :: rest)

/-- Decimal digits to a natural number. -/
def digits_to_nat (ds : List Nat) : Nat := ds.foldl (fun a d => 10 * a + d) 0

/-- JSON number grammar `-? (0 | [1-9][0-9]*) (\.[0-9]+)? ([eE][+-]?[0-9]+)?`,
the `NUMBER_RE` of Python's decoder. -/
def parse_number (cs : List Char) : Except Unit (Json × List Char) :=
  let (neg, cs1) := match cs with
    | '-' :: rest => (true, rest)
    | _ => (false, cs)
  match take_digits cs1 with
  | ([], _) => .error ()
  | (ds, rest1) =>
    if 1 < ds.length ∧ ds.headD 0 = 0 then .error ()
    else
      let (fds, rest2, fracOk) := match rest1 with
        | '.' :: r =>
          (match take_digits r with
           | ([], _) => ([], rest1, false)
           | (fs, r2) => (fs, r2, true))
        | _ => ([], rest1, true)
      if !fracOk then .error ()
      else
        let (hasExp, expNeg, eds, rest3, expOk) := match rest2 with
          | 'e' :: r => parse_exp_tail r
          | 'E' :: r => parse_exp_tail r
          | _ => (false, false, [], rest2, true)
        if !expOk then .error ()
        else
          let mant : ℚ := (digits_to_nat ds : ℚ) +
            (digits_to_nat fds : ℚ) / ((10 : ℚ) ^ fds.length)
          let e : Nat := digits_to_nat eds
          let mag : ℚ := if !hasExp then mant
            else if expNeg then mant / (10 : ℚ) ^ e else mant * (10 : ℚ) ^ e
          .ok (Json.num (if neg then -mag else mag), rest3)
where
  /-- Exponent tail after `e`/`E`: optional sign then at least one digit. -/
  parse_exp_tail (r : List Char) : Bool × Bool × List Nat × List Char × Bool :=
    let (sgn, r1) := match r with
      | '+' :: r2 => (false, r2)
      | '-' :: r2 => (true, r2)
      | _ => (false, r)
    match take_digits r1 with
    | ([], _) => (true, sgn, [], r1, false)
    | (eds, r2) => (true, sgn, eds, r2, true)

/-- Parsing task tag: a single value, the items of an array whose opening
bracket is consumed, or the members of an object whose opening brace is
consumed (neither in the empty case, handled by the caller). -/
inductive PK where
  | pv
  | pa (acc : List Json)
  | po (acc : List (String × Json))

/-- Parsing result tag, mirroring `PK`. -/
inductive PR where
  | rv (j : Json)
  | ra (l : List Json)
  | ro (l : List (String × Json))

/-- Recursive-descent JSON parser.  A single fuel-indexed function so that it
is structurally recursive; every fuel step consumes input, so fuel
`2 * length + 8` never runs out. -/
def parse_core : Nat → PK → List Char → Except Unit (PR × List Char)
  | 0, _, _ => .error ()
  | fuel+1, PK.pv, cs =>
    (match skip_ws cs with
     | [] => .error ()
     | c :: rest =>
       if c == 'n' then
         match rest with
         | 'u' :: 'l' :: 'l' :: rem => .ok (.rv .null, rem)
         | _ => .error ()
       else if c == 't' then
         match rest with
         | 'r' :: 'u' :: 'e' :: rem => .ok (.rv (.bool true), rem)
         | _ => .error ()
       else if c == 'f' then
         match rest with
         | 'a' :: 'l' :: 's' :: 'e' :: rem => .ok (.rv (.bool false), rem)
         | _ => .error ()
       else if c == '"' then
         match parse_str_body (rest.length + 1) rest with
         | .ok (scs, rem) => .ok (.rv (.str (String.mk scs)), rem)
         | .error u => .error u
       else if c == '[' then
         match skip_ws rest with
         | ']' :: rem => .ok (.rv (.arr []), rem)
         | rest2 =>
           match parse_core fuel (PK.pa []) rest2 with
           | .ok (.ra l, rem) => .ok (.rv (.arr l), rem)
           | _ => .error ()
       else if c == '\x7b' then
         match skip_ws rest with
         | '\x7d' :: rem => .ok (.rv (.obj []), rem)
         | rest2 =>
           match parse_core fuel (PK.po []) rest2 with
           | .ok (.ro l, rem) => .ok (.rv (.obj l), rem)
           | _ => .error ()
       else if c == '-' || (digit_val c).isSome then
         match parse_number (c :: rest) with
         | .ok (j, rem) => .ok (.rv j, rem)
         | .error u => .error u
       else .error ())
  | fuel+1, PK.pa acc, cs =>
    (match parse_core fuel PK.pv cs with
     | .ok (.rv j, rem) =>
       (match skip_ws rem with
        | ',' :: rem2 => parse_core fuel (PK.pa (acc ++ [j])) rem2
        | ']' :: rem2 => .ok (.ra (acc ++ [j]), rem2)
        | _ => .error ())
     | _ => .error ())
  | fuel+1, PK.po acc, cs =>
    (match skip_ws cs with
     | '"' :: rest =>
       (match parse_str_body (rest.length + 1) rest with
        | .ok (kcs, rem) =>
          (match skip_ws rem with
           | ':' :: rem2 =>
             (match parse_core fuel PK.pv rem2 with
              | .ok (.rv v, rem3) =>
                (match skip_ws rem3 with
                 | ',' :: rem4 => parse_core fuel (PK.po (dict_insert acc (String.mk kcs) v)) rem4
                 | '\x7d' :: rem4 => .ok (.ro (dict_insert acc (String.mk kcs) v), rem4)
                 | _ => .error ())
              | _ => .error ())
           | _ => .error ())
        | .error u => .error u)
     | _ => .error ())

/-- `json.loads`: parse one value, allow surrounding whitespace, reject
trailing data. -/
def json_loads (s : String) : Except Unit Json :=
  match parse_core (2 * s.length + 8) PK.pv s.data with
  | .ok (.rv j, rem) => if skip_ws rem = [] then .ok j else .error ()
  | _ => .error ()

/-! ## Detection-response parsing (src/request_handler.py lines 156-170) -/

/-- Index of the first occurrence of `c` (`str.index`). -/
def first_idx_of (c : Char) (l : List Char) : Option Nat := l.findIdx? (· == c)

/-- Index of the last occurrence of `c` (`str.rindex`). -/
def last_idx_of (c : Char) (l : List Char) : Option Nat :=
  (l.reverse.findIdx? (· == c)).map (fun k => l.length - 1 - k)

/-- `response[response.index("{") : response.rindex("}") + 1]`; `none` models
the `ValueError` raised by `index`/`rindex` when the character is absent. -/
def substring_brace (s : String) : Option String :=
  match first_idx_of '\x7b' s.data, last_idx_of '\x7d' s.data with
  | some i, some j => some (String.mk ((s.data.drop i).take (j + 1 - i)))
  | _, _ => none

/-- The all-`null` fallback triple built in the final `except` branch. -/
def all_null_detected : Json :=
  Json.obj [("database", Json.null), ("table", Json.null), ("column", Json.null)]

/-- The `try`/`except` parsing chain of `detect_and_normalize_names`
(lines 156-170): direct parse, then parse of the first-`{`-to-last-`}`
substring, then the all-`null` dict.  Total: parsing never raises. -/
def detect_parse (response : String) : Json :=
  match json_loads response with
  | .ok j => j
  | .error _ =>
    match substring_brace response with
    | some sub =>
      match json_loads sub with
      | .ok j => j
      | .error _ => all_null_detected
    | none => all_null_detected

/-- The detected triple as consumed by `handle_user_query` via
`detected.get("database")`, `detected.get("table")`, `detected.get("column")`
(lines 486-489).  `none` models the `AttributeError` the caller would raise
when the parsed response is not a dict. -/
def detect_triple (response : String) : Option (Json × Json × Json) :=
  match detect_parse response with
  | Json.obj kvs => some (dict_get kvs "database", dict_get kvs "table", dict_get kvs "column")
  | _ => none

/-! ## Python truthiness and the validation fallback (lines 486-494) -/

/-- Python truthiness of a JSON-decoded value. -/
def py_truthy : Json → Bool
  | Json.null => false
  | Json.bool b => b
  | Json.num q => decide (q ≠ 0)
  | Json.str s => decide (s ≠ "")
  | Json.arr l => !l.isEmpty
  | Json.obj l => !l.isEmpty

/-- Python `x or d`. -/
def py_or (j d : Json) : Json := if py_truthy j then j else d

/-- Python `x in available_dbs` for a list of strings: only an equal string is
a member. -/
def json_in_str_list : Json → List String → Bool
  | Json.str s, l => l.contains s
  | _, _ => false

/-- Lines 486-494 of `handle_user_query`:
`db_name = detected.get("database") or MYSQL_DATABASE`,
`table_name = detected.get("table") or "Invoice_Data"`,
`column_name = detected.get("column")`, then the fallback
`if db_name not in available_dbs: db_name = MYSQL_DATABASE`. -/
def validate_names (det : Json × Json × Json) (available_dbs : List String)
    (default_db : String) : Json × Json × Json :=
  let db_name0 := py_or det.1 (Json.str default_db)
  let table_name := py_or det.2.1 (Json.str "Invoice_Data")
  let db_name := if json_in_str_list db_name0 available_dbs then db_name0
    else Json.str default_db
  (db_name, table_name, det.2.2)

/-! ## `fix_sql_query_column` (lines 444-463) -/

/-- `fix_sql_query_column(sql, error_msg, db_name, table_name)`, with the
`get_table_schema` call supplied as an oracle (`Except.error` models a raised
exception, which this function does not catch).  Extraction failure
short-circuits before the schema is fetched. -/
def fix_sql_query_column (sql error_msg : String)
    (schema : Except String (List String)) : Except String (Option String) :=
  match extract_column_from_sql_error error_msg with
  | none => .ok none
  | some invalid_col =>
    match schema with
    | .error e => .error e
    | .ok columns =>
      if columns.isEmpty then .ok none
      else
        match find_closest_column invalid_col columns with
        | none => .ok none
        | some corrected_col => .ok (some (sub_ci invalid_col corrected_col sql))

/-! ## The orchestrator `handle_user_query` (lines 466-542)

The external collaborators of one turn are an oracle record: the discovered
database list (the result of `fetch_all_databases()`), the LLM's detection
response, the per-database table listing, the configured default database
(`MYSQL_DATABASE`), the outcome of the whole SQL-generation step
(`build_full_sql_query`: prompt build, gateway call and SQL extraction, whose
raised exceptions become `Except.error`), the executor `mysql_query`, and the
`get_table_schema` result used by the repair.  `ρ` is the executor's success
payload type.  The returned list records the SQL strings executed, in order;
the outer `Except.error` models an uncaught Python exception. -/

structure TurnOracle (ρ : Type) where
  available_dbs : List String
  detect_response : String
  tables_of : String → Except String (List String)
  default_db : String
  gen_sql : Except String String
  exec : String → Except String ρ
  schema : Except String (List String)

/-- The result envelope handed to the front-end: the success dict of lines
508-515/526-534 or the error dict of lines 503/537/542. -/
inductive Outcome (ρ : Type) where
  | success (sql : String) (result : ρ) (corrected : Bool) (original_sql : Option String)
      (database table column : Json)
  | failure (error : String) (sql : Option String)

/-- `handle_user_query` (lines 466-542). -/
def handle_user_query {ρ : Type} (o : TurnOracle ρ) (_user_input : String) :
    Except String (Outcome ρ × List String) :=
  match detect_triple o.detect_response with
  | none => .error "AttributeError"
  | some det =>
    let (db_name, table_name, column_name) := validate_names det o.available_dbs o.default_db
    match o.gen_sql with
    | .error e => .ok (.failure ("AI generation failed: " ++ e) none, [])
    | .ok sql_query =>
      match o.exec sql_query with
      | .ok result =>
        .ok (.success sql_query result false none db_name table_name column_name, [sql_query])
      | .error exec_err =>
        match fix_sql_query_column sql_query exec_err o.schema with
        | .error e => .error e
        | .ok none =>
          .ok (.failure ("Query execution error: " ++ exec_err) (some sql_query), [sql_query])
        | .ok (some fixed_sql) =>
          if fixed_sql ≠ "" ∧ fixed_sql ≠ sql_query then
            match o.exec fixed_sql with
            | .ok fixed_result =>
              .ok (.success fixed_sql fixed_result true (some sql_query)
                db_name table_name column_name, [sql_query, fixed_sql])
            | .error second_err =>
              .ok (.failure ("Execution failed after fix: " ++ second_err) (some fixed_sql),
                [sql_query, fixed_sql])
          else
            .ok (.failure ("Query execution error: " ++ exec_err) (some sql_query), [sql_query])

/-! ## The detection prompt (lines 47-152)

`detect_and_normalize_names` first fetches the tables of every discovered
database (exceptions per database degrade to an empty table list) and folds
them into `schema_info_str`; the active prompt f-string (lines 99-148) then
interpolates only `user_input` and hardcodes the fixed `Task`/`Invoice_Data`
schema — `schema_info_str` is computed but never embedded. -/

/-- The loop of lines 59-66: per-database table listing with per-database
exception absorption. -/
def db_tables_of (available_dbs : List String)
    (tables_of : String → Except String (List String)) : List (String × List String) :=
  available_dbs.map (fun db => (db, match tables_of db with
    | .ok ts => ts
    | .error _ => []))

/-- One line of the schema summary (line 71). -/
def schema_info_line (db : String) (tables : List String) : String :=
  "\nDatabase `" ++ db ++ "` has tables: " ++ String.intercalate ", " tables

/-- The accumulated `schema_info_str` of lines 69-71. -/
def schema_info_str (db_tables : List (String × List String)) : String :=
  db_tables.foldl (fun acc p => acc ++ schema_info_line p.1 p.2) ""

/-- The prompt text before the interpolated `{user_input}` (lines 99-103). -/
def detection_prompt_pre : String :=
  "\nYou are an expert SQL assistant specialized in understanding user queries and mapping them exactly to database schema elements.\n\nUser input:\n\"\"\""

/-- The prompt text after the interpolated `{user_input}` (lines 103-148),
with the doubled braces of the f-string denoting literal braces. -/
def detection_prompt_post : String :=
  "\"\"\"\n\nSchema information for matching:\n\n- Available database: `Task`\n- Available table in `Task`: `Invoice_Data`\n- Columns in `Invoice_Data`:\n  id, billing_organization_name, billing_address, billing_contact_information, billing_phone_number,\n  billing_gst_number, billing_hsn_number, shipping_organization_name, shipping_address,\n  shipping_contact_information, shipping_phone_number, shipping_gst_number, billing_hsn_number,\n  invoice_number, invoice_date, due_date, total_amount, subtotal, tax_amount, discount, po_number,\n  currency, payment_terms, verification_status, file_path, extracted_at, created_at,\n  updated_at, line_items, file_name\n\nYour task:\n\n- Analyze the user input and exactly identify if it explicitly mentions any of the following:\n  1. The database name (must be `Task` or `null`)\n  2. The main table name (must be `Invoice_Data` or `null`)\n  3. An exact column name from the columns listed above (or `null` if none mentioned)\n\n- If the user input references synonyms or common terms related to columns (e.g., \"total revenue\" relates to `total_amount`), you may map accordingly only if the mention is clear.\n\n- If there is ambiguity or no explicit mention of any database, table, or column name, return `null` for those fields.\n\nImportant:\n\n- Do NOT guess or invent names.\n- Only respond with the JSON dictionary below WITHOUT ANY additional text or explanation.\n\nExample output JSON:\n\n\x7b\n  \"database\": \"Task\",\n  \"table\": \"Invoice_Data\",\n  \"column\": \"total_amount\"\n\x7d\n\nIf nothing matches explicitly, return:\n\n\x7b\n  \"database\": null,\n  \"table\": null,\n  \"column\": null\n\x7d\n"

/-- The detection prompt built by `detect_and_normalize_names`: the schema
summary is computed (lines 59-71) and then ignored by the f-string of
lines 99-148, which interpolates only the user input. -/
def build_detection_prompt (user_input : String)
    (db_tables : List (String × List String)) : String :=
  let _schema_info := schema_info_str db_tables
  detection_prompt_pre ++ user_input ++ detection_prompt_post

/-! ## Concrete turn oracles used by the claim witnesses -/

/-- A turn whose first execution fails with an unknown-column error and whose
repair succeeds on re-execution. -/
def oracle_repair_ok : TurnOracle Nat where
  available_dbs := ["information_schema", "Task"]
  detect_response := "\x7b\"database\": \"Task\", \"table\": null, \"column\": null\x7d"
  tables_of := fun _ => Except.ok ["Invoice_Data"]
  default_db := "Task"
  gen_sql := Except.ok "SELECT toatl_amount FROM Task.Invoice_Data;"
  exec := fun s => if s = "SELECT total_amount FROM Task.Invoice_Data;" then Except.ok 7
    else Except.error "Unknown column \x27toatl_amount\x27 in \x27field list\x27"
  schema := Except.ok ["total_amount", "tax_amount"]

/-- A turn whose execution fails without the unknown-column pattern. -/
def oracle_generic_error : TurnOracle Nat :=
  { oracle_repair_ok with exec := fun _ => Except.error "You have an error in your SQL syntax" }

/-- A turn whose SQL-generation step raises a transport fault. -/
def oracle_gen_fault : TurnOracle Nat :=
  { oracle_repair_ok with gen_sql := Except.error "transport fault" }

/-- A turn whose repair substitution leaves the SQL unchanged: the invalid
column equals its own closest match. -/
def oracle_identity_fix : TurnOracle Nat :=
  { oracle_repair_ok with
    gen_sql := Except.ok "SELECT amount FROM Task.Invoice_Data;"
    exec := fun _ => Except.error "Unknown column \x27amount\x27 in \x27field list\x27"
    schema := Except.ok ["amount"] }

/-- A turn whose detected database is not in the discovered list. -/
def oracle_unknown_db : TurnOracle Nat :=
  { oracle_repair_ok with
    detect_response := "\x7b\"database\": \"PO_APP\", \"table\": \"Invoice_Data\", \"column\": null\x7d"
    gen_sql := Except.ok "SELECT * FROM Task.Invoice_Data;"
    exec := fun _ => Except.ok 3 }

/-! ## Specification-side auxiliary definitions -/

/-- The slice `l[lo:hi]`, used to state properties of matching blocks. -/
def window (l : List Char) (lo hi : Nat) : List Char := (l.drop lo).take (hi - lo)

/-- A fraction pair as a rational. -/
def frac_q (p : Nat × Nat) : ℚ := (p.1 : ℚ) / (p.2 : ℚ)

/-- The invariant of the best block `(i, j, k)` maintained by the
`find_longest_match` scan: a non-trivial best block lies inside both windows
and its two slices are equal. -/
def good_block (a b : List Char) (alo ahi blo bhi : Nat) (best : Nat × Nat × Nat) : Prop :=
  0 < best.2.2 →
    alo ≤ best.1 ∧ best.1 + best.2.2 ≤ ahi ∧ blo ≤ best.2.1 ∧
    best.2.1 + best.2.2 ≤ bhi ∧ best.1 + best.2.2 ≤ a.length ∧
    best.2.1 + best.2.2 ≤ b.length ∧
    window a best.1 (best.1 + best.2.2) = window b best.2.1 (best.2.1 + best.2.2)

/-! # Theorems -/

/-! ## Generic auxiliary lemmas -/

theorem isSome_getElem_iff (l : List Char) (i : Nat) : l[i]?.isSome ↔ i < l.length := by
  constructor
  · intro h
    rcases Option.isSome_iff_exists.mp h with ⟨x, hx⟩
    exact (List.getElem?_eq_some.mp hx).1
  · intro h
    rw [List.getElem?_eq_getElem h]
    rfl

theorem multiset_inter_self (s : Multiset Char) : s ∩ s = s :=
  le_antisymm (Multiset.inter_le_left s s) (Multiset.le_inter le_rfl le_rfl)

/-! ## Window lemmas -/

theorem window_split (l : List Char) (lo m hi : Nat) (h1 : lo ≤ m) (h2 : m ≤ hi) :
    window l lo hi = window l lo m ++ window l m hi := by
  unfold window
  have hsum : hi - lo = (m - lo) + (hi - m) := by omega
  rw [hsum, List.take_add, List.drop_drop]
  have : lo + (m - lo) = m := by omega
  rw [this]

theorem window_single (l : List Char) (i : Nat) (h : i < l.length) :
    window l i (i + 1) = [l.get ⟨i, h⟩] := by
  unfold window
  have : i + 1 - i = 1 := by omega
  rw [this, List.drop_eq_getElem_cons h]
  rfl

theorem window_snoc (l : List Char) (lo i : Nat) (h1 : lo ≤ i) (h2 : i < l.length) :
    window l lo (i + 1) = window l lo i ++ [l.get ⟨i, h2⟩] := by
  rw [window_split l lo i (i + 1) h1 (by omega), window_single l i h2]

theorem window_full (l : List Char) : window l 0 l.length = l := by
  unfold window
  simp

theorem window_length (l : List Char) (lo hi : Nat) (h1 : lo ≤ hi) (h2 : hi ≤ l.length) :
    (window l lo hi).length = hi - lo := by
  unfold window
  rw [List.length_take, List.length_drop]
  omega

/-! ## `chain_len` invariant -/

theorem chain_len_spec (a b : List Char) (alo blo : Nat) :
    ∀ fuel i j k, chain_len a b alo blo fuel i j = k → 0 < k →
      alo ≤ i ∧ blo ≤ j ∧ k ≤ i + 1 - alo ∧ k ≤ j + 1 - blo ∧
      i < a.length ∧ j < b.length ∧
      window a (i + 1 - k) (i + 1) = window b (j + 1 - k) (j + 1) := by
  intro fuel
  induction fuel with
  | zero =>
    intro i j k hk hpos
    rw [chain_len] at hk
    omega
  | succ fuel ih =>
    intro i j k hk hpos
    rw [chain_len] at hk
    split_ifs at hk with hguard hbase
    · obtain ⟨hai, hbj, hsome, heq⟩ := hguard
      have hia : i < a.length := (isSome_getElem_iff a i).mp hsome
      have hae : a[i]? = some (a.get ⟨i, hia⟩) := List.getElem?_eq_getElem hia
      have hbe : b[j]? = some (a.get ⟨i, hia⟩) := by rw [← heq, hae]
      rcases List.getElem?_eq_some.mp hbe with ⟨hjb, hbv⟩
      subst hk
      refine ⟨hai, hbj, by omega, by omega, hia, hjb, ?_⟩
      have h1 : i + 1 - 1 = i := by omega
      have h2 : j + 1 - 1 = j := by omega
      rw [h1, h2, window_single a i hia, window_single b j hjb]
      simp only [List.get_eq_getElem] at hbv ⊢
      rw [hbv]
    · obtain ⟨hai, hbj, hsome, heq⟩ := hguard
      have hia : i < a.length := (isSome_getElem_iff a i).mp hsome
      have hae : a[i]? = some (a.get ⟨i, hia⟩) := List.getElem?_eq_getElem hia
      have hbe : b[j]? = some (a.get ⟨i, hia⟩) := by rw [← heq, hae]
      rcases List.getElem?_eq_some.mp hbe with ⟨hjb, hbv⟩
      have hialo : alo < i := by
        rcases Nat.lt_or_ge alo i with h | h
        · exact h
        · exfalso; exact hbase (Or.inl (by omega))
      have hjblo : blo < j := by
        rcases Nat.lt_or_ge blo j with h | h
        · exact h
        · exfalso; exact hbase (Or.inr (by omega))
      cases hc : chain_len a b alo blo fuel (i - 1) (j - 1) with
      | zero =>
        rw [hc] at hk
        subst hk
        refine ⟨by omega, by omega, by omega, by omega, hia, hjb, ?_⟩
        have h1 : i + 1 - (0 + 1) = i := by omega
        have h2 : j + 1 - (0 + 1) = j := by omega
        rw [h1, h2, window_single a i hia, window_single b j hjb]
        simp only [List.get_eq_getElem] at hbv ⊢
        rw [hbv]
      | succ m =>
        rw [hc] at hk
        obtain ⟨h1, h2, h3, h4, h5, h6, hwin⟩ := ih (i - 1) (j - 1) (m + 1) hc (by omega)
        subst hk
        refine ⟨by omega, by omega, by omega, by omega, hia, hjb, ?_⟩
        have e1 : (i - 1) + 1 = i := by omega
        have e2 : (j - 1) + 1 = j := by omega
        rw [e1, e2] at hwin
        have e3 : i + 1 - (m + 1 + 1) = i - (m + 1) := by omega
        have e4 : j + 1 - (m + 1 + 1) = j - (m + 1) := by omega
        rw [e3, e4,
          window_snoc a (i - (m + 1)) i (by omega) hia,
          window_snoc b (j - (m + 1)) j (by omega) hjb, hwin]
        simp only [List.get_eq_getElem] at hbv ⊢
        rw [hbv]
    · omega

/-! ## `find_longest_match` invariant -/

theorem flm_step_preserves (a b : List Char) (alo ahi blo bhi : Nat) (i : Nat)
    (hi : i < ahi) (best : Nat × Nat × Nat)
    (hbest : good_block a b alo ahi blo bhi best) :
    good_block a b alo ahi blo bhi (flm_step a b alo blo bhi best i) := by
  unfold flm_step
  cases hai : a[i]? with
  | none => exact hbest
  | some ch =>
    refine List.foldlRecOn (js_of b ch blo bhi) _ best hbest ?_
    intro cur hcur j hj
    simp only
    split_ifs with hlt
    · intro _
      have hkpos : 0 < chain_len a b alo blo (i + 1) i j := by omega
      obtain ⟨h1, h2, h3, h4, h5, h6, hwin⟩ :=
        chain_len_spec a b alo blo (i + 1) i j _ rfl hkpos
      have hjw : (decide (blo ≤ j ∧ j < bhi ∧ b[j]? = some ch)) = true :=
        (List.mem_filter.mp hj).2
      have hjp : blo ≤ j ∧ j < bhi ∧ b[j]? = some ch := of_decide_eq_true hjw
      simp only [good_block]
      set k := chain_len a b alo blo (i + 1) i j with hkdef
      have e1 : i + 1 - k + k = i + 1 := by omega
      have e2 : j + 1 - k + k = j + 1 := by omega
      refine ⟨by omega, by rw [e1]; omega, by omega, by rw [e2]; omega,
        by rw [e1]; omega, by rw [e2]; omega, ?_⟩
      rw [e1, e2]
      exact hwin
    · exact hcur

theorem flm_spec (a b : List Char) (alo ahi blo bhi : Nat) :
    good_block a b alo ahi blo bhi (find_longest_match a b alo ahi blo bhi) := by
  unfold find_longest_match
  refine List.foldlRecOn _ _ _ ?_ ?_
  · intro h
    simp at h
  · intro best hbest i hi
    have hmem := List.mem_range'_1.mp hi
    exact flm_step_preserves a b alo ahi blo bhi i (by omega) best hbest

/-! ## Multiset bound on the total match size -/

theorem multiset_inter_superadd (s1 s2 t1 t2 : Multiset Char) :
    Multiset.card (s1 ∩ t1) + Multiset.card (s2 ∩ t2) ≤
      Multiset.card ((s1 + s2) ∩ (t1 + t2)) := by
  have hle : (s1 ∩ t1) + (s2 ∩ t2) ≤ (s1 + s2) ∩ (t1 + t2) := by
    rw [Multiset.le_iff_count]
    intro x
    simp only [Multiset.count_add, Multiset.count_inter]
    refine le_inf ?_ ?_
    · exact Nat.add_le_add inf_le_left inf_le_left
    · exact Nat.add_le_add inf_le_right inf_le_right
  have := Multiset.card_le_card hle
  rwa [Multiset.card_add] at this

theorem matching_total_le (a b : List Char) :
    ∀ fuel alo ahi blo bhi, matching_total a b fuel alo ahi blo bhi ≤
      Multiset.card ((window a alo ahi : Multiset Char) ∩ (window b blo bhi : Multiset Char)) := by
  intro fuel
  induction fuel with
  | zero =>
    intro alo ahi blo bhi
    rw [matching_total]
    omega
  | succ fuel ih =>
    intro alo ahi blo bhi
    rw [matching_total]
    rcases hflm : find_longest_match a b alo ahi blo bhi with ⟨i, j, k⟩
    by_cases hk : k = 0
    · simp [hk]
    · have hgood := flm_spec a b alo ahi blo bhi
      rw [hflm] at hgood
      obtain ⟨h1, h2, h3, h4, h5, h6, hwin⟩ := hgood (Nat.pos_of_ne_zero hk)
      simp only [if_neg hk]
      have hsa : window a alo ahi = window a alo i ++ (window a i (i + k) ++ window a (i + k) ahi) := by
        rw [← window_split a i (i + k) ahi (by omega) (by simpa using h2),
          ← window_split a alo i ahi (by simpa using h1) (by simp at h2 ⊢; omega)]
      have hsb : window b blo bhi = window b blo j ++ (window b j (j + k) ++ window b (j + k) bhi) := by
        rw [← window_split b j (j + k) bhi (by omega) (by simpa using h4),
          ← window_split b blo j bhi (by simpa using h3) (by simp at h4 ⊢; omega)]
      have hkcard : k ≤ Multiset.card ((window a i (i + k) : Multiset Char) ∩
          (window b j (j + k) : Multiset Char)) := by
        have hcoe : (window a i (i + k) : Multiset Char) = (window b j (j + k) : Multiset Char) := by
          simp only at hwin
          rw [hwin]
        rw [hcoe, multiset_inter_self, Multiset.coe_card,
          window_length b j (j + k) (by omega) (by simpa using h6)]
        omega
      have step1 : k + matching_total a b fuel (i + k) ahi (j + k) bhi ≤
          Multiset.card (((window a i (i + k) : Multiset Char) + (window a (i + k) ahi : Multiset Char)) ∩
            ((window b j (j + k) : Multiset Char) + (window b (j + k) bhi : Multiset Char))) :=
        le_trans (Nat.add_le_add hkcard (ih (i + k) ahi (j + k) bhi))
          (multiset_inter_superadd _ _ _ _)
      have step2 : matching_total a b fuel alo i blo j +
          (k + matching_total a b fuel (i + k) ahi (j + k) bhi) ≤
          Multiset.card (((window a alo i : Multiset Char) +
              ((window a i (i + k) : Multiset Char) + (window a (i + k) ahi : Multiset Char))) ∩
            ((window b blo j : Multiset Char) +
              ((window b j (j + k) : Multiset Char) + (window b (j + k) bhi : Multiset Char)))) :=
        le_trans (Nat.add_le_add (ih alo i blo j) step1) (multiset_inter_superadd _ _ _ _)
      rw [hsa, hsb, ← Multiset.coe_add, ← Multiset.coe_add, ← Multiset.coe_add, ← Multiset.coe_add]
      omega

/-! ## Score inequalities: `ratio ≤ quick_ratio ≤ real_quick_ratio` -/

theorem smatches_le_quick (x w : String) : smatches x w ≤ quick_matches x.data w.data := by
  have h := matching_total_le x.data w.data (x.length + w.length + 1) 0 x.data.length 0 w.data.length
  rw [window_full, window_full] at h
  exact h

theorem quick_le_left (a b : List Char) : quick_matches a b ≤ a.length := by
  have h := Multiset.card_le_card (Multiset.inter_le_left (↑a : Multiset Char) (↑b : Multiset Char))
  rwa [Multiset.coe_card] at h

theorem quick_le_right (a b : List Char) : quick_matches a b ≤ b.length := by
  have h := Multiset.card_le_card (Multiset.inter_le_right (↑a : Multiset Char) (↑b : Multiset Char))
  rwa [Multiset.coe_card] at h

theorem cutoff_le_frac_mono (cn cd m1 m2 t : Nat) (h : m1 ≤ m2)
    (hc : cutoff_le_frac cn cd m1 t = true) : cutoff_le_frac cn cd m2 t = true := by
  unfold cutoff_le_frac at hc ⊢
  split_ifs at hc ⊢ with ht
  · exact hc
  · rw [decide_eq_true_iff] at hc ⊢
    refine le_trans hc (Nat.mul_le_mul_left cd (by omega))

theorem gcm_passes_iff (x w : String) :
    gcm_passes x w = true ↔ cutoff_le_frac 3 5 (smatches x w) (stotal x w) = true := by
  constructor
  · intro h
    unfold gcm_passes at h
    simp only [Bool.and_eq_true] at h
    exact h.2
  · intro h
    have h1 : smatches x w ≤ quick_matches x.data w.data := smatches_le_quick x w
    have h2 : quick_matches x.data w.data ≤ min x.length w.length :=
      le_min (quick_le_left x.data w.data) (quick_le_right x.data w.data)
    unfold gcm_passes
    simp only [Bool.and_eq_true]
    exact ⟨⟨cutoff_le_frac_mono 3 5 _ _ _ (le_trans h1 h2) h,
      cutoff_le_frac_mono 3 5 _ _ _ h1 h⟩, h⟩

/-! ## Bridges between the integer comparisons and the rational scores -/

theorem cutoff_le_frac_iff (m t : Nat) :
    cutoff_le_frac 3 5 m t = true ↔ (3 / 5 : ℚ) ≤ calculate_ratio m t := by
  unfold cutoff_le_frac calculate_ratio
  split_ifs with ht
  · simp only [decide_eq_true_iff]
    constructor
    · intro _; norm_num
    · intro _; norm_num
  · rw [decide_eq_true_iff]
    have htq : (0 : ℚ) < (t : ℚ) := by
      have : 0 < t := Nat.pos_of_ne_zero ht
      exact_mod_cast this
    rw [div_le_div_iff (by norm_num) htq]
    constructor
    · intro h
      have h2 : ((3 * t : Nat) : ℚ) ≤ ((5 * (2 * m) : Nat) : ℚ) := by exact_mod_cast h
      push_cast at h2
      linarith
    · intro h
      have h2 : (3 : ℚ) * t ≤ 5 * (2 * m) := by linarith
      have h3 : ((3 * t : Nat) : ℚ) ≤ ((5 * (2 * m) : Nat) : ℚ) := by push_cast; linarith
      exact_mod_cast h3

theorem gcm_passes_iff_ratio (x w : String) :
    gcm_passes x w = true ↔ (3 / 5 : ℚ) ≤ ratioQ x w := by
  rw [gcm_passes_iff, cutoff_le_frac_iff]
  unfold ratioQ
  exact Iff.rfl

theorem score_pair_den_pos (x w : String) : 0 < (score_pair x w).2 := by
  unfold score_pair
  split_ifs with h
  · exact Nat.one_pos
  · exact Nat.pos_of_ne_zero h

theorem score_pair_ratio (x w : String) : ratioQ x w = frac_q (score_pair x w) := by
  unfold ratioQ calculate_ratio score_pair frac_q
  split_ifs with h
  · norm_num
  · push_cast
    ring

theorem frac_gt_iff (p q : Nat × Nat) (hp : 0 < p.2) (hq : 0 < q.2) :
    frac_gt p q = true ↔ frac_q q < frac_q p := by
  unfold frac_gt frac_q
  rw [decide_eq_true_iff, div_lt_div_iff (by exact_mod_cast hq) (by exact_mod_cast hp)]
  constructor
  · intro h; exact_mod_cast h
  · intro h; exact_mod_cast h

theorem frac_eq_iff (p q : Nat × Nat) (hp : 0 < p.2) (hq : 0 < q.2) :
    frac_eq p q = true ↔ frac_q p = frac_q q := by
  unfold frac_eq frac_q
  rw [decide_eq_true_iff, div_eq_div_iff (by positivity) (by positivity)]
  constructor
  · intro h; exact_mod_cast h
  · intro h; exact_mod_cast h

/-! ## The `nlargest`-style fold -/

theorem best_pair_cases (p q : (Nat × Nat) × String) :
    best_pair p q = p ∨ best_pair p q = q := by
  unfold best_pair
  split_ifs
  · right; rfl
  · left; rfl

theorem best_pair_ge (p q : (Nat × Nat) × String) (hp : 0 < p.1.2) (hq : 0 < q.1.2) :
    frac_q p.1 ≤ frac_q (best_pair p q).1 ∧ frac_q q.1 ≤ frac_q (best_pair p q).1 := by
  unfold best_pair
  split_ifs with h
  · simp only [Bool.or_eq_true, Bool.and_eq_true] at h
    rcases h with hgt | hand
    · exact ⟨le_of_lt ((frac_gt_iff q.1 p.1 hq hp).mp hgt), le_rfl⟩
    · have heq := hand.1
      have := (frac_eq_iff q.1 p.1 hq hp).mp heq
      exact ⟨le_of_eq this.symm, le_rfl⟩
  · have hor := Bool.or_eq_false_iff.mp (Bool.eq_false_iff.mpr h)
    have hgt : frac_gt q.1 p.1 = false := hor.1
    have hnlt : ¬ frac_q p.1 < frac_q q.1 := by
      intro hlt
      have htr := (frac_gt_iff q.1 p.1 hq hp).mpr hlt
      rw [htr] at hgt
      simp at hgt
    exact ⟨le_rfl, le_of_not_lt hnlt⟩

theorem fold_best_mem (ps : List ((Nat × Nat) × String)) (p : (Nat × Nat) × String) :
    ps.foldl best_pair p ∈ p :: ps := by
  induction ps generalizing p with
  | nil => simp
  | cons q ps ih =>
    simp only [List.foldl_cons]
    rcases best_pair_cases p q with he | he <;> rw [he]
    · have h := ih p
      simp only [List.mem_cons] at h ⊢
      tauto
    · have h := ih q
      simp only [List.mem_cons] at h ⊢
      tauto

theorem fold_best_ge (ps : List ((Nat × Nat) × String)) (p : (Nat × Nat) × String)
    (hden : ∀ q ∈ p :: ps, 0 < q.1.2) :
    ∀ q ∈ p :: ps, frac_q q.1 ≤ frac_q (ps.foldl best_pair p).1 := by
  induction ps generalizing p with
  | nil =>
    intro q hq
    simp only [List.mem_cons, List.not_mem_nil, or_false] at hq
    subst hq
    simp [List.foldl_nil]
  | cons r ps ih =>
    intro q hq
    simp only [List.foldl_cons]
    have hdp : 0 < p.1.2 := hden p (by simp)
    have hdr : 0 < r.1.2 := hden r (by simp)
    have hbp := best_pair_ge p r hdp hdr
    have hdb : 0 < (best_pair p r).1.2 := by
      rcases best_pair_cases p r with he | he <;> rw [he] <;> assumption
    have hden2 : ∀ s ∈ (best_pair p r) :: ps, 0 < s.1.2 := by
      intro s hs
      rcases List.mem_cons.mp hs with h1 | h1
      · rw [h1]; exact hdb
      · exact hden s (by simp [List.mem_cons, h1])
    have hfold := ih (best_pair p r) hden2
    rcases List.mem_cons.mp hq with h1 | h1
    · rw [h1]
      exact le_trans hbp.1 (hfold _ (by simp))
    rcases List.mem_cons.mp h1 with h2 | h2
    · rw [h2]
      exact le_trans hbp.2 (hfold _ (by simp))
    · exact hfold q (by simp [List.mem_cons, h2])

/-! ## Characterization of `get_close_matches1` -/

theorem gcm_scored_mem (word : String) (ps : List String) (p : (Nat × Nat) × String) :
    p ∈ gcm_scored word ps ↔
      p.2 ∈ ps ∧ gcm_passes p.2 word = true ∧ p.1 = score_pair p.2 word := by
  unfold gcm_scored
  rw [List.mem_filterMap]
  constructor
  · rintro ⟨x, hx, hfx⟩
    by_cases hpass : gcm_passes x word = true
    · rw [if_pos hpass] at hfx
      rcases Option.some_injective _ hfx with rfl
      exact ⟨hx, hpass, rfl⟩
    · rw [if_neg hpass] at hfx
      cases hfx
  · rintro ⟨hmem, hpass, hscore⟩
    refine ⟨p.2, hmem, ?_⟩
    rw [if_pos hpass, ← hscore]

theorem gcm1_some (word : String) (ps : List String) (c : String)
    (h : get_close_matches1 word ps = some c) :
    c ∈ ps ∧ gcm_passes c word = true ∧
      ∀ d ∈ ps, gcm_passes d word = true → ratioQ d word ≤ ratioQ c word := by
  unfold get_close_matches1 at h
  cases hs : gcm_scored word ps with
  | nil => rw [hs] at h; cases h
  | cons p rest =>
    rw [hs] at h
    have hc : c = (rest.foldl best_pair p).2 := (Option.some_injective _ h.symm)
    have hfmem : rest.foldl best_pair p ∈ p :: rest := fold_best_mem rest p
    rw [← hs] at hfmem
    have hf := (gcm_scored_mem word ps _).mp hfmem
    have hden : ∀ q ∈ p :: rest, 0 < q.1.2 := by
      intro q hq
      rw [← hs] at hq
      have := (gcm_scored_mem word ps q).mp hq
      rw [this.2.2]
      exact score_pair_den_pos q.2 word
    refine ⟨hc ▸ hf.1, hc ▸ hf.2.1, ?_⟩
    intro d hd hdpass
    have hdmem : (score_pair d word, d) ∈ gcm_scored word ps := by
      rw [gcm_scored_mem]
      exact ⟨hd, hdpass, rfl⟩
    rw [hs] at hdmem
    have hge := fold_best_ge rest p hden _ hdmem
    rw [score_pair_ratio d word, score_pair_ratio c word, hc, ← hf.2.2]
    exact hge

theorem gcm1_none (word : String) (ps : List String)
    (h : get_close_matches1 word ps = none) :
    ∀ d ∈ ps, gcm_passes d word = false := by
  unfold get_close_matches1 at h
  cases hs : gcm_scored word ps with
  | cons p rest => rw [hs] at h; cases h
  | nil =>
    intro d hd
    by_contra hne
    have hdpass : gcm_passes d word = true := by
      cases hx : gcm_passes d word
      · exact absurd hx hne
      · rfl
    have hdmem : (score_pair d word, d) ∈ gcm_scored word ps := by
      rw [gcm_scored_mem]
      exact ⟨hd, hdpass, rfl⟩
    rw [hs] at hdmem
    cases hdmem

theorem gcm1_some_ne_empty (word : String) (ps : List String) (c : String)
    (h : get_close_matches1 word ps = some c) (hw : word ≠ "") : c ≠ "" := by
  intro hc
  have hfacts := gcm1_some word ps c h
  have hpass := hfacts.2.1
  unfold gcm_passes at hpass
  simp only [Bool.and_eq_true] at hpass
  have hrq := hpass.1.1
  subst hc
  have hwlen : word.length ≠ 0 := by
    intro h0
    apply hw
    cases word with
    | mk data =>
      cases data with
      | nil => rfl
      | cons x xs => simp [String.length] at h0
  unfold cutoff_le_frac stotal at hrq
  have hlen0 : ("" : String).length = 0 := rfl
  rw [hlen0, Nat.zero_add, Nat.zero_min] at hrq
  rw [if_neg hwlen, decide_eq_true_iff] at hrq
  omega

/-! ## Emptiness lemmas for the repair substitution -/

theorem sub_ci_aux_nil (pat rep : List Char) (hrep : rep ≠ []) :
    ∀ fuel cs, sub_ci_aux pat rep fuel cs = [] → cs = [] := by
  intro fuel
  induction fuel with
  | zero =>
    intro cs h
    cases cs with
    | nil => rfl
    | cons c r => simp [sub_ci_aux] at h
  | succ fuel ih =>
    intro cs h
    cases cs with
    | nil => rfl
    | cons c r =>
      rw [sub_ci_aux] at h
      split_ifs at h with hcond
      all_goals first
        | (rcases List.append_eq_nil.mp h with ⟨h1, _⟩; exact absurd h1 hrep)
        | simp at h

theorem sub_ci_ne_empty (pat rep s : String) (hrep : rep ≠ "") (hs : s ≠ "") :
    sub_ci pat rep s ≠ "" := by
  intro h
  apply hs
  unfold sub_ci at h
  have hdata := congrArg String.data h
  have hrepd : rep.data ≠ [] := by
    intro h0
    apply hrep
    cases rep with
    | mk d => cases h0; rfl
  have hsnil : s.data = [] := sub_ci_aux_nil pat.data rep.data hrepd s.data.length s.data hdata
  cases s with
  | mk d => cases hsnil; rfl

theorem scan_capture_ne_nil :
    ∀ cs acc cap, capture_scan acc cs = some cap → cap ≠ [] := by
  intro cs
  induction cs with
  | nil =>
    intro acc cap h
    rw [capture_scan] at h
    cases h
  | cons c rest ih =>
    intro acc cap h
    rw [capture_scan] at h
    split_ifs at h with h1 h2
    · intro hc
      have hinj : (c :: acc).reverse = cap := Option.some_injective _ h
      rw [hc] at hinj
      rw [List.reverse_eq_nil_iff] at hinj
      exact List.noConfusion hinj
    · exact ih _ _ h

theorem scan_error_ne_nil :
    ∀ cs cap, scan_error_msg cs = some cap → cap ≠ [] := by
  intro cs
  induction cs with
  | nil =>
    intro cap h
    rw [scan_error_msg] at h
    cases h
  | cons c rest ih =>
    intro cap h
    rw [scan_error_msg] at h
    split_ifs at h with h1
    · cases hcap : capture_scan [] ((c :: rest).drop unknown_col_marker.length) with
      | some cp =>
        rw [hcap] at h
        rcases Option.some_injective _ h with rfl
        exact scan_capture_ne_nil _ _ _ hcap
      | none =>
        rw [hcap] at h
        exact ih _ h
    · exact ih _ h

theorem extract_col_ne_empty (msg col : String)
    (h : extract_column_from_sql_error msg = some col) : col ≠ "" := by
  unfold extract_column_from_sql_error at h
  cases hscan : scan_error_msg msg.data with
  | none => rw [hscan] at h; cases h
  | some cap =>
    rw [hscan, Option.map_some'] at h
    have hmk := Option.some_injective _ h
    intro hc
    rw [hc] at hmk
    have hdata := congrArg String.data hmk
    exact scan_error_ne_nil msg.data cap hscan hdata

/-- When the repair heuristic returns a changed SQL string, that string is
non-empty (Python truthiness of `fixed_sql` in line 522 holds). -/
theorem fix_changed_ne_empty (sql msg : String) (schema : Except String (List String))
    (fixed : String) (hfix : fix_sql_query_column sql msg schema = .ok (some fixed))
    (hne : fixed ≠ sql) : fixed ≠ "" := by
  unfold fix_sql_query_column at hfix
  cases hext : extract_column_from_sql_error msg with
  | none =>
    rw [hext] at hfix
    simp at hfix
  | some invalid =>
    rw [hext] at hfix
    cases schema with
    | error e => cases hfix
    | ok columns =>
      simp only at hfix
      split_ifs at hfix with hempty
      · simp at hfix
      · cases hcm : find_closest_column invalid columns with
        | none => rw [hcm] at hfix; simp at hfix
        | some corrected =>
          rw [hcm] at hfix
          simp only [Except.ok.injEq, Option.some.injEq] at hfix
          have hinv : invalid ≠ "" := extract_col_ne_empty msg invalid hext
          have hcor : corrected ≠ "" := by
            unfold find_closest_column at hcm
            exact gcm1_some_ne_empty invalid columns corrected hcm hinv
          intro hfe
          by_cases hsql : sql = ""
          · apply hne
            rw [hfe, hsql]
          · exact sub_ci_ne_empty invalid corrected sql hcor hsql (hfix ▸ hfe)

/-! ## The success envelope carries `original_sql` only when corrected -/

theorem success_original_imp_corrected {ρ : Type} (o : TurnOracle ρ) (inp : String)
    (sql : String) (r : ρ) (cb : Bool) (os : Option String) (db tb col : Json)
    (log : List String)
    (h : handle_user_query o inp = .ok (.success sql r cb os db tb col, log))
    (hos : os.isSome) : cb = true := by
  unfold handle_user_query at h
  cases hdet : detect_triple o.detect_response with
  | none => simp [hdet] at h
  | some det =>
    rcases hval : validate_names det o.available_dbs o.default_db with ⟨dbv, tbv, colv⟩
    cases hgen : o.gen_sql with
    | error e => simp [hdet, hval, hgen] at h
    | ok sqlq =>
      cases hexec : o.exec sqlq with
      | ok res =>
        simp only [hdet, hval, hgen, hexec] at h
        simp only [Except.ok.injEq, Prod.mk.injEq, Outcome.success.injEq] at h
        rw [← h.1.2.2.2.1] at hos
        simp at hos
      | error msg =>
        cases hfix : fix_sql_query_column sqlq msg o.schema with
        | error e2 => simp [hdet, hval, hgen, hexec, hfix] at h
        | ok fx =>
          cases fx with
          | none => simp [hdet, hval, hgen, hexec, hfix] at h
          | some fixed =>
            simp only [hdet, hval, hgen, hexec, hfix] at h
            split_ifs at h with hcond
            · cases hexec2 : o.exec fixed with
              | ok r2 =>
                simp only [hexec2, Except.ok.injEq, Prod.mk.injEq,
                  Outcome.success.injEq] at h
                exact h.1.2.2.1.symm
              | error e3 =>
                simp [hexec2] at h
            · simp at h

/-! ## Validation helpers -/

theorem validate_db_fallback (det : Json × Json × Json) (dbs : List String) (ddb : String)
    (hmem : json_in_str_list det.1 dbs = false) :
    (validate_names det dbs ddb).1 = Json.str ddb := by
  simp only [validate_names, py_or]
  split_ifs with h1 h2 h3
  · exact absurd h2 (by rw [hmem]; simp)
  · rfl
  · rfl
  · rfl

theorem validate_table_default (det : Json × Json × Json) (dbs : List String) (ddb : String)
    (hnull : det.2.1 = Json.null) :
    (validate_names det dbs ddb).2.1 = Json.str "Invoice_Data" := by
  simp only [validate_names, py_or, hnull]
  split_ifs with h <;> first | rfl | simp [py_truthy] at h

theorem validate_col_pass (det : Json × Json × Json) (dbs : List String) (ddb : String) :
    (validate_names det dbs ddb).2.2 = det.2.2 := by
  simp only [validate_names]

/-! # Claim theorems -/

/-- Claim C1 (code bug evaluation).  The spec says SQL extraction returns the
trimmed contents of a fenced code block whenever the response contains one.
The code searches with the pattern `r"``````"` — six literal backticks and no
capture group — which never matches an ordinary ```` ```sql ... ``` ```` block,
so a fenced response falls through to the keyword scan and the extraction of a
fenced `SELECT` statement keeps the trailing closing fence instead of returning
exactly the fenced content. -/
theorem C1_fence_extraction_bug_eval :
    extract_sql_from_llm_response "```sql\nSELECT * FROM Task.Invoice_Data;\n```" =
      "SELECT * FROM Task.Invoice_Data;\n```" := rfl

/-- Claim C3.  The validation step replaces a detected database that is null or
absent from the discovered list by the configured default and proceeds with the
turn; a null detected table defaults to `Invoice_Data`; the detected column
passes through unchanged.  The last conjunct shows a turn with an
out-of-catalog detected database running to a normal success outcome on the
default database — the turn is never aborted for this reason. -/
theorem C3_validation_fallback {ρ : Type} (det : Json × Json × Json)
    (dbs : List String) (ddb : String) (o : TurnOracle ρ) (inp sql : String) (r : ρ) :
    ((det.1 = Json.null ∨ json_in_str_list det.1 dbs = false) →
        (validate_names det dbs ddb).1 = Json.str ddb)
    ∧ (det.2.1 = Json.null → (validate_names det dbs ddb).2.1 = Json.str "Invoice_Data")
    ∧ (validate_names det dbs ddb).2.2 = det.2.2
    ∧ (detect_triple o.detect_response = some det →
        json_in_str_list det.1 o.available_dbs = false →
        o.gen_sql = .ok sql → o.exec sql = .ok r →
        handle_user_query o inp = .ok (.success sql r false none
          (Json.str o.default_db) (validate_names det o.available_dbs o.default_db).2.1
          det.2.2, [sql])) := by
  refine ⟨?_, validate_table_default det dbs ddb, validate_col_pass det dbs ddb, ?_⟩
  · intro hcond
    have hmem : json_in_str_list det.1 dbs = false := by
      rcases hcond with hnull | hf
      · rw [hnull]; rfl
      · exact hf
    exact validate_db_fallback det dbs ddb hmem
  · intro hdet hmem hgen hexec
    unfold handle_user_query
    rcases hval : validate_names det o.available_dbs o.default_db with ⟨dbv, tbv, colv⟩
    have hdb : dbv = Json.str o.default_db := by
      have h1 := validate_db_fallback det o.available_dbs o.default_db hmem
      rw [hval] at h1
      exact h1
    have hcol : colv = det.2.2 := by
      have h1 := validate_col_pass det o.available_dbs o.default_db
      rw [hval] at h1
      exact h1
    simp only [hdet, hval, hgen, hexec, hdb, hcol]

/-- Claim C7.  When the first execution fails with a message in which the
pattern `Unknown column '<name>' in` does not occur, no repair is computed and
no second execution happens: the outcome is the terminal
`Query execution error` envelope carrying the attempted SQL, and the executed
log holds that single statement. -/
theorem C7_no_repair_without_pattern {ρ : Type} (o : TurnOracle ρ) (inp : String)
    (det : Json × Json × Json) (sql msg : String)
    (hdet : detect_triple o.detect_response = some det)
    (hgen : o.gen_sql = .ok sql)
    (hexec : o.exec sql = .error msg)
    (hnopat : extract_column_from_sql_error msg = none) :
    fix_sql_query_column sql msg o.schema = .ok none ∧
    handle_user_query o inp =
      .ok (.failure ("Query execution error: " ++ msg) (some sql), [sql]) := by
  have hfix : fix_sql_query_column sql msg o.schema = .ok none := by
    unfold fix_sql_query_column
    rw [hnopat]
  refine ⟨hfix, ?_⟩
  unfold handle_user_query
  rcases hval : validate_names det o.available_dbs o.default_db with ⟨dbv, tbv, colv⟩
  simp only [hdet, hval, hgen, hexec, hfix]

/-- Claim C8.  When the SQL-generation step raises, the turn terminates
immediately with the `AI generation failed: ...` envelope, which has no `sql`
component, and no query execution is attempted (the executed-SQL log is
empty). -/
theorem C8_generation_failure {ρ : Type} (o : TurnOracle ρ) (inp : String)
    (det : Json × Json × Json) (e : String)
    (hdet : detect_triple o.detect_response = some det)
    (hgen : o.gen_sql = .error e) :
    handle_user_query o inp = .ok (.failure ("AI generation failed: " ++ e) none, []) := by
  unfold handle_user_query
  rcases hval : validate_names det o.available_dbs o.default_db with ⟨dbv, tbv, colv⟩
  simp only [hdet, hval, hgen]

/-- Claim C9 (implicit).  When execution fails with an unknown-column error and
the repair substitution leaves the SQL unchanged, no re-execution happens and
the outcome is the same terminal envelope — original error message plus the
original SQL — as when no close match exists. -/
theorem C9_identity_fix_no_retry {ρ : Type} (o : TurnOracle ρ) (inp : String)
    (det : Json × Json × Json) (sql msg : String)
    (hdet : detect_triple o.detect_response = some det)
    (hgen : o.gen_sql = .ok sql)
    (hexec : o.exec sql = .error msg)
    (hfix : fix_sql_query_column sql msg o.schema = .ok (some sql)) :
    handle_user_query o inp =
      .ok (.failure ("Query execution error: " ++ msg) (some sql), [sql]) := by
  unfold handle_user_query
  rcases hval : validate_names det o.available_dbs o.default_db with ⟨dbv, tbv, colv⟩
  simp only [hdet, hval, hgen, hexec, hfix]
  rw [if_neg (fun hcond => hcond.2 rfl)]

/-- Claim C2.  When the first execution fails with the unknown-column pattern
and the repair heuristic produces a changed SQL string, exactly one
re-execution is performed: on success the outcome is `corrected = true` with
`sql` the corrected statement and `original_sql` the pre-repair statement; on
failure the outcome is the terminal `Execution failed after fix` envelope
carrying the corrected SQL.  In both cases the executed log is exactly the
original followed by the corrected statement — the correction budget is one.
The final conjunct is the envelope invariant: a success outcome carries
`original_sql` only when `corrected = true`. -/
theorem C2_single_correction {ρ : Type} (o : TurnOracle ρ) (inp : String)
    (det : Json × Json × Json) (sql fixed msg : String)
    (hdet : detect_triple o.detect_response = some det)
    (hgen : o.gen_sql = .ok sql)
    (hexec : o.exec sql = .error msg)
    (hfix : fix_sql_query_column sql msg o.schema = .ok (some fixed))
    (hne : fixed ≠ sql) :
    (∀ r : ρ, o.exec fixed = .ok r →
        handle_user_query o inp = .ok (.success fixed r true (some sql)
          (validate_names det o.available_dbs o.default_db).1
          (validate_names det o.available_dbs o.default_db).2.1
          (validate_names det o.available_dbs o.default_db).2.2, [sql, fixed]))
    ∧ (∀ e2 : String, o.exec fixed = .error e2 →
        handle_user_query o inp =
          .ok (.failure ("Execution failed after fix: " ++ e2) (some fixed), [sql, fixed]))
    ∧ (∀ (o2 : TurnOracle ρ) (inp2 sql2 : String) (r2 : ρ) (cb2 : Bool)
        (os2 : Option String) (db2 tb2 col2 : Json) (log2 : List String),
        handle_user_query o2 inp2 = .ok (.success sql2 r2 cb2 os2 db2 tb2 col2, log2) →
        os2.isSome → cb2 = true) := by
  have hnem : fixed ≠ "" := fix_changed_ne_empty sql msg o.schema fixed hfix hne
  refine ⟨?_, ?_, fun o2 inp2 sql2 r2 cb2 os2 db2 tb2 col2 log2 h hos =>
    success_original_imp_corrected o2 inp2 sql2 r2 cb2 os2 db2 tb2 col2 log2 h hos⟩
  · intro r hr
    unfold handle_user_query
    rcases hval : validate_names det o.available_dbs o.default_db with ⟨dbv, tbv, colv⟩
    simp only [hdet, hval, hgen, hexec, hfix]
    rw [if_pos ⟨hnem, hne⟩]
    simp only [hr]
  · intro e2 hr
    unfold handle_user_query
    rcases hval : validate_names det o.available_dbs o.default_db with ⟨dbv, tbv, colv⟩
    simp only [hdet, hval, hgen, hexec, hfix]
    rw [if_pos ⟨hnem, hne⟩]
    simp only [hr]

/-- Claim C5.  For a detection response that is valid JSON whose keys are a
subset of `database`/`table`/`column`, the parsing step yields exactly that
triple, each missing key defaulted to null. -/
theorem C5_detection_triple (response : String) (kvs : List (String × Json))
    (hp : json_loads response = .ok (Json.obj kvs))
    (_hk : ∀ p ∈ kvs, p.1 = "database" ∨ p.1 = "table" ∨ p.1 = "column") :
    detect_triple response = some
      ((dict_lookup kvs "database").getD Json.null,
       (dict_lookup kvs "table").getD Json.null,
       (dict_lookup kvs "column").getD Json.null) := by
  unfold detect_triple detect_parse
  rw [hp]
  rfl

/-- Claim C6.  Detection-response parsing is the total fallback chain: a direct
parse is used when it succeeds; otherwise the first-brace-to-last-brace
substring is parsed; on any further failure the result is the all-null triple.
Unparsable garbage therefore yields `(null, null, null)` and parsing never
raises. -/
theorem C6_detection_parse_chain :
    (∀ r j, json_loads r = .ok j → detect_parse r = j)
    ∧ (∀ r sub j, json_loads r = .error () → substring_brace r = some sub →
        json_loads sub = .ok j → detect_parse r = j)
    ∧ (∀ r sub, json_loads r = .error () → substring_brace r = some sub →
        json_loads sub = .error () →
        detect_parse r = all_null_detected ∧
          detect_triple r = some (Json.null, Json.null, Json.null))
    ∧ (∀ r, json_loads r = .error () → substring_brace r = none →
        detect_parse r = all_null_detected ∧
          detect_triple r = some (Json.null, Json.null, Json.null)) := by
  refine ⟨?_, ?_, ?_, ?_⟩
  · intro r j h
    unfold detect_parse
    rw [h]
  · intro r sub j h1 h2 h3
    unfold detect_parse
    rw [h1]
    simp only [h2, h3]
  · intro r sub h1 h2 h3
    have hp : detect_parse r = all_null_detected := by
      unfold detect_parse
      rw [h1]
      simp only [h2, h3]
    refine ⟨hp, ?_⟩
    unfold detect_triple
    rw [hp]
    rfl
  · intro r h1 h2
    have hp : detect_parse r = all_null_detected := by
      unfold detect_parse
      rw [h1]
      simp only [h2]
    refine ⟨hp, ?_⟩
    unfold detect_triple
    rw [hp]
    rfl

/-- Claim C10 (implicit).  The detection prompt depends only on the user's
input text: for any two turns with the same input and arbitrary discovered
catalogs, the built prompt is byte-identical, because the prompt is a fixed
hardcoded `Task`/`Invoice_Data` schema text around the interpolated input and
the computed schema summary is never embedded. -/
theorem C10_detection_prompt_input_only :
    (∀ inp dt1 dt2, build_detection_prompt inp dt1 = build_detection_prompt inp dt2)
    ∧ (∀ inp dbs1 dbs2 t1 t2,
        build_detection_prompt inp (db_tables_of dbs1 t1) =
          build_detection_prompt inp (db_tables_of dbs2 t2))
    ∧ (∀ inp dt, build_detection_prompt inp dt =
        detection_prompt_pre ++ inp ++ detection_prompt_post) :=
  ⟨fun _ _ _ => rfl, fun _ _ _ _ _ => rfl, fun _ _ => rfl⟩

/-- Claim C4.  The closest-column function returns only a member of the
candidate list whose similarity ratio is at least `3/5` and maximal among all
candidates; it returns none exactly when every candidate scores below `3/5`.
On the spec's concrete inputs: `toatl_amount` against
`[total_amount, tax_amount]` yields `total_amount`, and `zzz_unrelated`
against the same candidates yields none. -/
theorem C4_closest_column_contract (w : String) (cs : List String) :
    (∀ c, find_closest_column w cs = some c →
        c ∈ cs ∧ (3 / 5 : ℚ) ≤ ratioQ c w ∧ ∀ d ∈ cs, ratioQ d w ≤ ratioQ c w)
    ∧ (find_closest_column w cs = none → ∀ d ∈ cs, ratioQ d w < 3 / 5)
    ∧ find_closest_column "toatl_amount" ["total_amount", "tax_amount"] = some "total_amount"
    ∧ find_closest_column "zzz_unrelated" ["total_amount", "tax_amount"] = none := by
  refine ⟨?_, ?_, by decide, by decide⟩
  · intro c hc
    unfold find_closest_column at hc
    have h := gcm1_some w cs c hc
    refine ⟨h.1, (gcm_passes_iff_ratio c w).mp h.2.1, ?_⟩
    intro d hd
    by_cases hdp : gcm_passes d w = true
    · exact h.2.2 d hd hdp
    · have hdlt : ratioQ d w < 3 / 5 := by
        by_contra hge
        exact hdp ((gcm_passes_iff_ratio d w).mpr (le_of_not_lt hge))
      exact le_trans (le_of_lt hdlt) ((gcm_passes_iff_ratio c w).mp h.2.1)
  · intro hnone d hd
    unfold find_closest_column at hnone
    have h := gcm1_none w cs hnone d hd
    by_contra hge
    rw [(gcm_passes_iff_ratio d w).mpr (le_of_not_lt hge)] at h
    cases h

/-! # Witnesses -/

/-- Witness for C2: the concrete repair-success turn, exercising the first
conjunct with both hypotheses discharged by evaluation. -/
theorem C2_witness :
    handle_user_query oracle_repair_ok "Who are the top 5 customers by total amount?" =
      .ok (.success "SELECT total_amount FROM Task.Invoice_Data;" 7 true
        (some "SELECT toatl_amount FROM Task.Invoice_Data;")
        (Json.str "Task") (Json.str "Invoice_Data") Json.null,
        ["SELECT toatl_amount FROM Task.Invoice_Data;",
          "SELECT total_amount FROM Task.Invoice_Data;"]) :=
  (C2_single_correction oracle_repair_ok "Who are the top 5 customers by total amount?"
    (Json.str "Task", Json.null, Json.null)
    "SELECT toatl_amount FROM Task.Invoice_Data;"
    "SELECT total_amount FROM Task.Invoice_Data;"
    "Unknown column \x27toatl_amount\x27 in \x27field list\x27"
    rfl rfl rfl rfl (by decide)).1 7 rfl

/-- Witness for C3: a detected database absent from the discovered list falls
back to the default database and the turn completes normally. -/
theorem C3_witness :
    handle_user_query oracle_unknown_db "List all invoices" =
      .ok (.success "SELECT * FROM Task.Invoice_Data;" 3 false none
        (Json.str "Task") (Json.str "Invoice_Data") Json.null,
        ["SELECT * FROM Task.Invoice_Data;"]) :=
  (C3_validation_fallback (Json.str "PO_APP", Json.str "Invoice_Data", Json.null)
    oracle_unknown_db.available_dbs oracle_unknown_db.default_db oracle_unknown_db
    "List all invoices" "SELECT * FROM Task.Invoice_Data;" 3).2.2.2 rfl rfl rfl rfl

/-- Witness for C4: the spec's concrete repair-monotonicity example. -/
theorem C4_witness :
    "total_amount" ∈ ["total_amount", "tax_amount"] ∧
      (3 / 5 : ℚ) ≤ ratioQ "total_amount" "toatl_amount" ∧
      ∀ d ∈ ["total_amount", "tax_amount"],
        ratioQ d "toatl_amount" ≤ ratioQ "total_amount" "toatl_amount" :=
  (C4_closest_column_contract "toatl_amount" ["total_amount", "tax_amount"]).1
    "total_amount" (by decide)

/-- Witness for C5: a valid detection response missing the `table` key. -/
theorem C5_witness :
    detect_triple "\x7b\"database\": \"Task\", \"column\": \"total_amount\"\x7d" =
      some (Json.str "Task", Json.null, Json.str "total_amount") :=
  C5_detection_triple "\x7b\"database\": \"Task\", \"column\": \"total_amount\"\x7d"
    [("database", Json.str "Task"), ("column", Json.str "total_amount")] rfl (by decide)

/-- Witness for C6: unparsable garbage degrades to the all-null triple. -/
theorem C6_witness :
    detect_parse "the model returned no JSON at all" = all_null_detected ∧
      detect_triple "the model returned no JSON at all" =
        some (Json.null, Json.null, Json.null) :=
  C6_detection_parse_chain.2.2.2 "the model returned no JSON at all" rfl rfl

/-- Witness for C7: a syntax error without the unknown-column pattern is
terminal, with no repair computed. -/
theorem C7_witness :
    fix_sql_query_column "SELECT toatl_amount FROM Task.Invoice_Data;"
        "You have an error in your SQL syntax" oracle_generic_error.schema = .ok none ∧
      handle_user_query oracle_generic_error "Show me everything" =
        .ok (.failure "Query execution error: You have an error in your SQL syntax"
          (some "SELECT toatl_amount FROM Task.Invoice_Data;"),
          ["SELECT toatl_amount FROM Task.Invoice_Data;"]) :=
  C7_no_repair_without_pattern oracle_generic_error "Show me everything"
    (Json.str "Task", Json.null, Json.null)
    "SELECT toatl_amount FROM Task.Invoice_Data;"
    "You have an error in your SQL syntax" rfl rfl rfl rfl

/-- Witness for C8: a transport fault during generation yields the
`AI generation failed` envelope with no SQL and no execution. -/
theorem C8_witness :
    handle_user_query oracle_gen_fault "How many customers do we have?" =
      .ok (.failure "AI generation failed: transport fault" none, []) :=
  C8_generation_failure oracle_gen_fault "How many customers do we have?"
    (Json.str "Task", Json.null, Json.null) "transport fault" rfl rfl

/-- Witness for C9: an identity repair substitution skips the re-execution. -/
theorem C9_witness :
    handle_user_query oracle_identity_fix "total amount" =
      .ok (.failure
        "Query execution error: Unknown column \x27amount\x27 in \x27field list\x27"
        (some "SELECT amount FROM Task.Invoice_Data;"),
        ["SELECT amount FROM Task.Invoice_Data;"]) :=
  C9_identity_fix_no_retry oracle_identity_fix "total amount"
    (Json.str "Task", Json.null, Json.null) "SELECT amount FROM Task.Invoice_Data;"
    "Unknown column \x27amount\x27 in \x27field list\x27" rfl rfl rfl rfl

end SQLChatbot
